import Mathlib

/-!
Verification of the Dynatrace Metrics V2 API simulator core.

This file gives a shallow embedding of the core logic of the simulator:
the selector parsing and metric-lookup logic inlined in `app.py`
(`query_metrics`, `get_metric_data_points`) and the series generators of
`mock_data.py` (`get_mock_data_points`, `get_mock_multi_series_data`).

Modelling conventions:
* Python integers are `ℤ`; Python floats produced by `random.uniform`
  are modelled as `ℚ`.
* The global `random` module is modelled as an explicit state-passing
  `RandomSource` record; `RandomSource.Valid` captures the documented
  contract of `random.uniform` / `random.randint` (result within the
  inclusive bounds).
* Python `while` loops are embedded with an explicit fuel argument; the
  fuel chosen in the wrapper definitions is proved sufficient, so the
  embedded function computes exactly the sequence the source loop emits.
* Python substring tests (`pat in s`) and `s.split(pat)` are embedded as
  executable functions on `List Char`.
-/

namespace DynatraceSim

/-- Boolean test that the list `l` starts with the pattern `p`. -/
def leadsWithB : List Char → List Char → Bool
  | [], _ => true
  | _ :: _, [] => false
  | a :: p, b :: l => if a = b then leadsWithB p l else false

/-- Substring containment on character lists: some position of `s` starts
with `pat`.  This embeds the Python expression `pat in s`. -/
def containsSub (s pat : List Char) : Bool :=
  (List.range (s.length + 1)).any fun j => leadsWithB pat (s.drop j)

/-- Substring containment on strings, embedding Python `pat in s`. -/
def strContains (s pat : String) : Bool :=
  containsSub s.toList pat.toList

/-- The segment of `s` before the first occurrence of `pat`, or `none` when
`pat` does not occur.  This embeds `s.split(pat)[0]` together with the
Python test `len(s.split(pat)) > 1`. -/
def befFirst (pat : List Char) : List Char → Option (List Char)
  | [] => if leadsWithB pat [] then some [] else none
  | c :: l =>
    if leadsWithB pat (c :: l) then some []
    else
      match befFirst pat l with
      | some p => some (c :: p)
      | none => none

/-- Result of parsing a metric selector (`query_metrics`, app.py 160-181). -/
structure ParsedSelector where
  baseMetricId : String
  hasFilter : Bool
  hasSplitBy : Bool
  hasSort : Bool
  deriving DecidableEq, Repr

/-- Base-metric-id extraction from a selector (app.py lines 160-176):
try splitting on the marker strings in the fixed order
`:filter(`, `:splitBy(`, `:sort(`; the part before the first occurrence of
the first marker that occurs is the base id, otherwise the whole selector.
The outer guard mirrors Python's `if metric_selector:` with the initial
value `base_metric_id = ''`. -/
def extractBaseMetricId (sel : String) : String :=
  if sel = "" then ""
  else
    match befFirst ":filter(".toList sel.toList with
    | some p => String.mk p
    | none =>
      match befFirst ":splitBy(".toList sel.toList with
      | some p => String.mk p
      | none =>
        match befFirst ":sort(".toList sel.toList with
        | some p => String.mk p
        | none => sel

/-- Selector parsing (app.py lines 160-181): base id extraction plus the
three substring-presence flags. -/
def parseSelector (sel : String) : ParsedSelector :=
  ⟨extractBaseMetricId sel,
   strContains sel ":filter(",
   strContains sel ":splitBy(",
   strContains sel ":sort("⟩

/-- A catalog entry.  Only the fields that the lookup logic reads are
modelled; the remaining fields of the `METRICS` records (unit, description,
aggregation types, ...) are never inspected by the code under
verification. -/
structure Metric where
  metricId : String
  displayName : String
  deriving DecidableEq, Repr

/-- Permissive metric lookup used by the filtered-query path
(app.py lines 188-199): exact match (only tried when the base id is a
non-empty string, mirroring Python's `if base_metric_id:` truthiness
test), then substring match (again only for a non-empty base id), then
the first catalog entry. -/
def findMetricPermissive (catalog : List Metric) (base : String) : Option Metric :=
  let m1 : Option Metric :=
    if base = "" then none else catalog.find? fun m => m.metricId == base
  let m2 : Option Metric :=
    match m1 with
    | some m => some m
    | none =>
      if base = "" then none else catalog.find? fun m => strContains m.metricId base
  match m2 with
  | some m => some m
  | none => catalog.head?

/-- Strict metric lookup used by the direct-lookup-by-id path
(app.py line 295): first catalog entry whose id is exactly the requested
id; `none` models the 404 `NotFound` answer. -/
def findMetricStrict (catalog : List Metric) (mid : String) : Option Metric :=
  catalog.find? fun m => m.metricId == mid

/-- Resolution table of `get_mock_data_points` (mock_data.py lines
198-204): `interval_map.get(resolution, 60000)`. -/
def intervalFlat (resolution : String) : ℤ :=
  if resolution = "1m" then 60000
  else if resolution = "5m" then 300000
  else if resolution = "1h" then 3600000
  else if resolution = "1d" then 86400000
  else 60000

/-- Resolution table of `get_mock_multi_series_data` (mock_data.py lines
250-256): `interval_map.get(resolution, 300000)`. -/
def intervalMulti (resolution : String) : ℤ :=
  if resolution = "1m" then 60000
  else if resolution = "5m" then 300000
  else if resolution = "1h" then 3600000
  else if resolution = "1d" then 86400000
  else 300000

/-- Explicit state-passing model of the Python `random` module:
`uniform` models `random.uniform` (float result), `randint` models
`random.randint` (int result). -/
structure RandomSource (σ : Type) where
  uniform : ℚ → ℚ → σ → ℚ × σ
  randint : ℤ → ℤ → σ → ℤ × σ

/-- The documented contract of `random.uniform a b` and
`random.randint a b`: for `a ≤ b`, the result lies in `[a, b]`. -/
def RandomSource.Valid {σ : Type} (rs : RandomSource σ) : Prop :=
  (∀ a b s, a ≤ b → a ≤ (rs.uniform a b s).1 ∧ (rs.uniform a b s).1 ≤ b) ∧
  (∀ a b s, a ≤ b → a ≤ (rs.randint a b s).1 ∧ (rs.randint a b s).1 ≤ b)

/-- A concrete random source that always returns the lower bound. -/
def trivSource : RandomSource Unit :=
  ⟨fun a _ s => (a, s), fun a _ s => (a, s)⟩

/-- One random value drawn by the body of the generation loop of
`get_mock_data_points` (mock_data.py lines 211-223): the metric-name
heuristic dispatch, checked in source order. -/
def flatValue {σ : Type} (rs : RandomSource σ) (metric_id : String) (s : σ) : ℚ × σ :=
  if strContains metric_id "cpu" || strContains metric_id "mem" then
    rs.uniform 20 90 s
  else if strContains metric_id "response.time" then
    rs.uniform 100 5000 s
  else if strContains metric_id "request.count" || strContains metric_id "keyRequest.count" then
    let p := rs.randint 1000 2800 s
    ((p.1 : ℚ), p.2)
  else if strContains metric_id "crashCount" then
    let p := rs.randint 0 50 s
    ((p.1 : ℚ), p.2)
  else if strContains metric_id "disk" then
    rs.uniform 1000000000 10000000000 s
  else
    rs.uniform 0 100 s

/-- Fuel-indexed embedding of the `while current_ts <= to_ts` loop of
`get_mock_data_points` (mock_data.py lines 210-226).  The fuel only bounds
the recursion; `loopFuel` below is proved sufficient, so the emitted list
is exactly the one the source loop produces. -/
def dataPointsLoop {σ : Type} (rs : RandomSource σ) (metric_id : String) :
    ℕ → ℤ → ℤ → ℤ → σ → List (ℤ × ℚ)
  | 0, _, _, _, _ => []
  | fuel + 1, cur, toTs, interval, s =>
    if cur ≤ toTs then
      let p := flatValue rs metric_id s
      (cur, p.1) :: dataPointsLoop rs metric_id fuel (cur + interval) toTs interval p.2
    else []

/-- Sufficient fuel for the cursor walk from `f` to `t` with step `i`. -/
def loopFuel (f t i : ℤ) : ℕ := ((t - f) / i).toNat + 1

/-- `get_mock_data_points` (mock_data.py lines 179-228) on already-parsed
integer timestamps: walk the cursor from `from_ts` to `to_ts` inclusive
with the resolved interval, emitting one `(timestamp, value)` pair per
step. -/
def get_mock_data_points {σ : Type} (rs : RandomSource σ) (metric_id : String)
    (from_ts to_ts : ℤ) (resolution : String) (s : σ) : List (ℤ × ℚ) :=
  dataPointsLoop rs metric_id (loopFuel from_ts to_ts (intervalFlat resolution))
    from_ts to_ts (intervalFlat resolution) s

/-- Fuel-indexed embedding of the timestamp walk of
`get_mock_multi_series_data` (mock_data.py lines 259-263). -/
def tsLoop : ℕ → ℤ → ℤ → ℤ → List ℤ
  | 0, _, _, _ => []
  | fuel + 1, cur, toTs, interval =>
    if cur ≤ toTs then cur :: tsLoop fuel (cur + interval) toTs interval else []

/-- The shared timestamp list of the multi-series generator. -/
def genTimestamps (f t i : ℤ) : List ℤ := tsLoop (loopFuel f t i) f t i

/-- `[random.randint(a, b) for _ in timestamps]`: draw `n` integer values,
threading the random state left to right. -/
def randintList {σ : Type} (rs : RandomSource σ) (a b : ℤ) : ℕ → σ → List ℚ × σ
  | 0, s => ([], s)
  | n + 1, s =>
    let p := rs.randint a b s
    let q := randintList rs a b n p.2
    ((p.1 : ℚ) :: q.1, q.2)

/-- `[random.uniform(a, b) for _ in timestamps]`: draw `n` real values,
threading the random state left to right. -/
def uniformList {σ : Type} (rs : RandomSource σ) (a b : ℚ) : ℕ → σ → List ℚ × σ
  | 0, s => ([], s)
  | n + 1, s =>
    let p := rs.uniform a b s
    let q := uniformList rs a b n p.2
    (p.1 :: q.1, q.2)

/-- One series of the multi-series answer (mock_data.py lines 267-305):
dimension keys, dimension key/value map, timestamps and values. -/
structure SeriesData where
  dimensions : List String
  dimensionMap : List (String × String)
  timestamps : List ℤ
  values : List ℚ
  deriving DecidableEq, Repr

/-- `get_mock_multi_series_data` (mock_data.py lines 231-307) on
already-parsed integer timestamps: build the shared timestamp list, then
either the three hardcoded service-method series (when the metric id
contains `keyRequest.count` or `service`) or one default dimensionless
series. -/
def get_mock_multi_series_data {σ : Type} (rs : RandomSource σ) (metric_id : String)
    (from_ts to_ts : ℤ) (resolution : String) (s : σ) : List SeriesData :=
  let interval := intervalMulti resolution
  let timestamps := genTimestamps from_ts to_ts interval
  if strContains metric_id "keyRequest.count" || strContains metric_id "service" then
    let q1 := randintList rs 2000 2800 timestamps.length s
    let q2 := randintList rs 1000 1400 timestamps.length q1.2
    let q3 := randintList rs 500 1000 timestamps.length q2.2
    [⟨["dt.entity.service_method"],
      [("dt.entity.service_method", "SERVICE_METHOD-7B94CA28812AEDEB"),
       ("dt.entity.service_method.name", "criarCobrancaPut - bki.cielo.com.br")],
      timestamps, q1.1⟩,
     ⟨["dt.entity.service_method"],
      [("dt.entity.service_method", "SERVICE_METHOD-586B0DAF0DCA0215"),
       ("dt.entity.service_method.name",
        "criarCobrancaPutEmv - IFOOD COM AGENCIA DE RESTAURANTES ONLINE S A:14380200000121")],
      timestamps, q2.1⟩,
     ⟨["dt.entity.service_method"],
      [("dt.entity.service_method", "SERVICE_METHOD-ABC123DEF456"),
       ("dt.entity.service_method.name", "processPayment - payment.service.com")],
      timestamps, q3.1⟩]
  else
    let q := uniformList rs 0 100 timestamps.length s
    [⟨[], [], timestamps, q.1⟩]

/-- A timestamp argument as received by the generators: either an already
parsed integer or a decimal string (mock_data.py lines 187-195 and
239-247 accept both). -/
inductive TsArg where
  | int (n : ℤ)
  | str (s : String)
  deriving DecidableEq, Repr

/-- Mapping of a digit value to its character.  Only digits below ten
occur; the final fallback is arbitrary. -/
def digitChar (d : ℕ) : Char :=
  if d = 0 then '0' else if d = 1 then '1' else if d = 2 then '2'
  else if d = 3 then '3' else if d = 4 then '4' else if d = 5 then '5'
  else if d = 6 then '6' else if d = 7 then '7' else if d = 8 then '8'
  else if d = 9 then '9' else '0'

/-- Digit value of a character, `none` for non-digits. -/
def charVal (c : Char) : Option ℕ :=
  if c = '0' then some 0 else if c = '1' then some 1 else if c = '2' then some 2
  else if c = '3' then some 3 else if c = '4' then some 4 else if c = '5' then some 5
  else if c = '6' then some 6 else if c = '7' then some 7 else if c = '8' then some 8
  else if c = '9' then some 9 else none

/-- Accumulator-passing decimal digit reader. -/
def parseDigits : List Char → ℕ → Option ℕ
  | [], acc => some acc
  | c :: l, acc =>
    match charVal c with
    | some d => parseDigits l (acc * 10 + d)
    | none => none

/-- Model of Python `int(s)` on decimal integer literals: an optional
leading minus sign followed by at least one digit.  (Python `int` also
tolerates surrounding whitespace and a leading plus; such inputs do not
occur in this development.)  `none` models a raised `ValueError`. -/
def parseIntChars : List Char → Option ℤ
  | [] => none
  | c :: l =>
    if c = '-' then
      match l with
      | [] => none
      | _ :: _ => (parseDigits l 0).map fun n : ℕ => -(n : ℤ)
    else
      (parseDigits (c :: l) 0).map fun n : ℕ => (n : ℤ)

/-- Model of Python `int(s)` on a string, see `parseIntChars`. -/
def parseIntStr (s : String) : Option ℤ := parseIntChars s.toList

/-- The canonical decimal digit list of a natural number (model of Python
`str` on a non-negative int). -/
def decList (n : ℕ) : List Char :=
  if n = 0 then ['0'] else ((Nat.digits 10 n).map digitChar).reverse

/-- The decimal string representation of an integer (model of Python
`str` on an int). -/
def decimalRepr (i : ℤ) : String :=
  if i < 0 then String.mk ('-' :: decList i.natAbs) else String.mk (decList i.toNat)

/-- The timestamp-argument dispatch at the top of both generators
(mock_data.py lines 187-195 and 239-247): a string argument goes through
`int`, an integer argument is used as is. -/
def resolveTs : TsArg → Option ℤ
  | TsArg.int n => some n
  | TsArg.str s => parseIntStr s

/-- `get_mock_data_points` as called with possibly-string timestamp
arguments; `none` models the `ValueError` escaping when `int` fails. -/
def get_mock_data_points_arg {σ : Type} (rs : RandomSource σ) (metric_id : String)
    (fa ta : TsArg) (resolution : String) (s : σ) : Option (List (ℤ × ℚ)) :=
  match resolveTs fa, resolveTs ta with
  | some f, some t => some (get_mock_data_points rs metric_id f t resolution s)
  | _, _ => none

/-- `get_mock_multi_series_data` as called with possibly-string timestamp
arguments. -/
def get_mock_multi_series_data_arg {σ : Type} (rs : RandomSource σ) (metric_id : String)
    (fa ta : TsArg) (resolution : String) (s : σ) : Option (List SeriesData) :=
  match resolveTs fa, resolveTs ta with
  | some f, some t => some (get_mock_multi_series_data rs metric_id f t resolution s)
  | _, _ => none

/-- The timestamp sequence as the spec describes it: the arithmetic
progression `f, f + i, f + 2i, ...` with exactly `(t - f) / i + 1`
points when `f ≤ t`, and the empty sequence when `f > t`. -/
def specTimestamps (f t i : ℤ) : List ℤ :=
  if f ≤ t then (List.range (((t - f) / i).toNat + 1)).map fun k : ℕ => f + (k : ℤ) * i
  else []

/-- The spec's value-range table for the flat generator, keyed by the same
substring dispatch, first match wins. -/
def ValueInRange (metric_id : String) (q : ℚ) : Prop :=
  if strContains metric_id "cpu" || strContains metric_id "mem" then
    20 ≤ q ∧ q ≤ 90
  else if strContains metric_id "response.time" then
    100 ≤ q ∧ q ≤ 5000
  else if strContains metric_id "request.count" || strContains metric_id "keyRequest.count" then
    ∃ k : ℤ, q = (k : ℚ) ∧ 1000 ≤ k ∧ k ≤ 2800
  else if strContains metric_id "crashCount" then
    ∃ k : ℤ, q = (k : ℚ) ∧ 0 ≤ k ∧ k ≤ 50
  else if strContains metric_id "disk" then
    1000000000 ≤ q ∧ q ≤ 10000000000
  else
    0 ≤ q ∧ q ≤ 100

/-- The permissive lookup as the spec's three-step fallback reads, with
the guard the code actually applies: for a non-empty base id, first exact
match, then first substring match, then head of the catalog; for an empty
base id, directly the head of the catalog. -/
def findPermSpec (catalog : List Metric) (base : String) : Option Metric :=
  if base = "" then catalog.head?
  else
    match catalog.find? fun m => m.metricId == base with
    | some m => some m
    | none =>
      match catalog.find? fun m => strContains m.metricId base with
      | some m => some m
      | none => catalog.head?

/-- `b` is the segment of `s` strictly before the first occurrence of
`pat`: `pat` occurs in `s` immediately after `b`, and at no earlier
position. -/
def BeforeFirstOcc (pat s b : List Char) : Prop :=
  (∃ r, s = b ++ pat ++ r) ∧ ∀ j < b.length, ¬ ∃ r, s.drop j = pat ++ r

lemma leadsWithB_iff : ∀ p l : List Char, leadsWithB p l = true ↔ ∃ r, l = p ++ r := by
  intro p
  induction p with
  | nil => intro l; simp [leadsWithB]
  | cons a p ih =>
    intro l
    cases l with
    | nil => simp [leadsWithB]
    | cons b l =>
      simp only [leadsWithB]
      by_cases hab : a = b
      · subst hab
        rw [if_pos rfl, ih]
        constructor
        · rintro ⟨r, rfl⟩; exact ⟨r, rfl⟩
        · rintro ⟨r, hr⟩
          injection hr with h1 h2
          exact ⟨r, h2⟩
      · rw [if_neg hab]
        constructor
        · intro h; exact Bool.noConfusion h
        · rintro ⟨r, hr⟩
          injection hr with h1 h2
          exact absurd h1.symm hab

lemma befFirst_some_decomp :
    ∀ s pat p : List Char, befFirst pat s = some p → ∃ r, s = p ++ pat ++ r := by
  intro s
  induction s with
  | nil =>
    intro pat p h
    simp only [befFirst] at h
    by_cases hl : leadsWithB pat [] = true
    · rw [if_pos hl] at h
      obtain ⟨r, hr⟩ := (leadsWithB_iff pat []).mp hl
      cases h
      exact ⟨r, by simpa using hr⟩
    · rw [if_neg hl] at h; cases h
  | cons c l ih =>
    intro pat p h
    simp only [befFirst] at h
    by_cases hl : leadsWithB pat (c :: l) = true
    · rw [if_pos hl] at h
      obtain ⟨r, hr⟩ := (leadsWithB_iff pat (c :: l)).mp hl
      cases h
      exact ⟨r, by simpa using hr⟩
    · rw [if_neg hl] at h
      cases hrec : befFirst pat l with
      | none => rw [hrec] at h; cases h
      | some p' =>
        rw [hrec] at h
        cases h
        obtain ⟨r, hr⟩ := ih pat p' hrec
        exact ⟨r, by simp [hr]⟩

lemma befFirst_some_min :
    ∀ s pat p : List Char, befFirst pat s = some p →
      ∀ j < p.length, ¬ ∃ r, s.drop j = pat ++ r := by
  intro s
  induction s with
  | nil =>
    intro pat p h
    simp only [befFirst] at h
    by_cases hl : leadsWithB pat [] = true
    · rw [if_pos hl] at h; cases h; intro j hj; simp at hj
    · rw [if_neg hl] at h; cases h
  | cons c l ih =>
    intro pat p h
    simp only [befFirst] at h
    by_cases hl : leadsWithB pat (c :: l) = true
    · rw [if_pos hl] at h; cases h; intro j hj; simp at hj
    · rw [if_neg hl] at h
      cases hrec : befFirst pat l with
      | none => rw [hrec] at h; cases h
      | some p' =>
        rw [hrec] at h
        cases h
        intro j hj
        cases j with
        | zero =>
          intro hocc
          exact hl ((leadsWithB_iff pat (c :: l)).mpr (by simpa using hocc))
        | succ j =>
          simp only [List.length_cons, Nat.succ_lt_succ_iff] at hj
          simpa using ih pat p' hrec j hj

lemma befFirst_none :
    ∀ s pat : List Char, pat ≠ [] → befFirst pat s = none →
      ∀ j, ¬ ∃ r, s.drop j = pat ++ r := by
  intro s
  induction s with
  | nil =>
    intro pat hpat _ j
    rintro ⟨r, hr⟩
    simp only [List.drop_nil] at hr
    cases pat with
    | nil => exact hpat rfl
    | cons c cs => simp at hr
  | cons c l ih =>
    intro pat hpat h j
    simp only [befFirst] at h
    by_cases hl : leadsWithB pat (c :: l) = true
    · rw [if_pos hl] at h; cases h
    · rw [if_neg hl] at h
      cases hrec : befFirst pat l with
      | some p' => rw [hrec] at h; cases h
      | none =>
        cases j with
        | zero =>
          intro hocc
          exact hl ((leadsWithB_iff pat (c :: l)).mpr (by simpa using hocc))
        | succ j =>
          simpa using ih pat hpat hrec j

lemma containsSub_iff (s pat : List Char) :
    containsSub s pat = true ↔ ∃ j, ∃ r, s.drop j = pat ++ r := by
  unfold containsSub
  rw [List.any_eq_true]
  constructor
  · rintro ⟨j, -, hj⟩
    exact ⟨j, (leadsWithB_iff pat (s.drop j)).mp hj⟩
  · rintro ⟨j, r, hr⟩
    by_cases hj : j ≤ s.length
    · exact ⟨j, by simpa [List.mem_range, Nat.lt_succ_iff] using hj,
        (leadsWithB_iff pat (s.drop j)).mpr ⟨r, hr⟩⟩
    · have hd : s.drop j = [] := List.drop_eq_nil_of_le (le_of_not_le hj)
      rw [hd] at hr
      cases pat with
      | cons c cs => simp at hr
      | nil => exact ⟨0, by simp, rfl⟩

lemma strContains_iff (s pat : String) :
    strContains s pat = true ↔ ∃ j, ∃ r, s.toList.drop j = pat.toList ++ r := by
  unfold strContains
  exact containsSub_iff s.toList pat.toList

lemma befFirst_isSome_of_contains {s pat : List Char} (hpat : pat ≠ [])
    (h : containsSub s pat = true) : ∃ p, befFirst pat s = some p := by
  cases hb : befFirst pat s with
  | none =>
    obtain ⟨j, r, hr⟩ := (containsSub_iff s pat).mp h
    exact absurd ⟨r, hr⟩ (befFirst_none s pat hpat hb j)
  | some p => exact ⟨p, rfl⟩

lemma contains_of_befFirst_some {s pat p : List Char}
    (h : befFirst pat s = some p) : containsSub s pat = true := by
  obtain ⟨r, hr⟩ := befFirst_some_decomp s pat p h
  refine (containsSub_iff s pat).mpr ⟨p.length, r, ?_⟩
  rw [hr, List.append_assoc, List.drop_left]

lemma intervalFlat_pos (resolution : String) : 0 < intervalFlat resolution := by
  unfold intervalFlat
  split_ifs <;> decide

lemma intervalMulti_pos (resolution : String) : 0 < intervalMulti resolution := by
  unfold intervalMulti
  split_ifs <;> decide

lemma specTimestamps_of_gt {f t i : ℤ} (h : t < f) : specTimestamps f t i = [] := by
  unfold specTimestamps
  rw [if_neg (not_le.mpr h)]

lemma specTimestamps_cons {i : ℤ} (hi : 0 < i) {f t : ℤ} (h : f ≤ t) :
    specTimestamps f t i = f :: specTimestamps (f + i) t i := by
  have hd0 : 0 ≤ (t - f) / i := Int.ediv_nonneg (by omega) (le_of_lt hi)
  by_cases hstep : f + i ≤ t
  · have hd1 : 1 ≤ (t - f) / i :=
      (Int.le_ediv_iff_mul_le hi).mpr (by omega)
    have hshift : (t - (f + i)) / i = (t - f) / i - 1 := by
      have : t - (f + i) = (t - f) + (-1) * i := by ring
      rw [this, Int.add_mul_ediv_right _ _ (by omega)]
      omega
    have hnat : ((t - f) / i).toNat = ((t - (f + i)) / i).toNat + 1 := by
      rw [hshift]; omega
    unfold specTimestamps
    rw [if_pos h, if_pos hstep, hnat, List.range_succ_eq_map, List.map_cons, List.map_map]
    congr 1
    · push_cast; ring
    · apply List.map_congr_left
      intro k _
      simp only [Function.comp_apply]
      push_cast
      ring
  · have hd : (t - f) / i = 0 := Int.ediv_eq_zero_of_lt (by omega) (by omega)
    unfold specTimestamps
    rw [if_pos h, if_neg hstep, hd]
    rw [show List.range (Int.toNat 0 + 1) = [0] from rfl]
    simp

lemma tsLoop_eq_spec {i : ℤ} (hi : 0 < i) (t : ℤ) :
    ∀ (fuel : ℕ) (cur : ℤ), t - cur < (fuel : ℤ) * i →
      tsLoop fuel cur t i = specTimestamps cur t i := by
  intro fuel
  induction fuel with
  | zero =>
    intro cur hfuel
    simp only [Nat.cast_zero, zero_mul] at hfuel
    rw [tsLoop, specTimestamps_of_gt (by omega)]
  | succ fuel ih =>
    intro cur hfuel
    by_cases hcur : cur ≤ t
    · rw [tsLoop, if_pos hcur, specTimestamps_cons hi hcur]
      congr 1
      apply ih
      push_cast at hfuel ⊢
      nlinarith
    · rw [tsLoop, if_neg hcur, specTimestamps_of_gt (by omega)]

lemma loopFuel_suff {i : ℤ} (hi : 0 < i) (f t : ℤ) :
    t - f < (loopFuel f t i : ℤ) * i := by
  unfold loopFuel
  by_cases h : f ≤ t
  · have hd0 : 0 ≤ (t - f) / i := Int.ediv_nonneg (by omega) (le_of_lt hi)
    have := Int.lt_ediv_add_one_mul_self (t - f) hi
    calc t - f < ((t - f) / i + 1) * i := this
    _ = ((((t - f) / i).toNat + 1 : ℕ) : ℤ) * i := by
        congr 1
        push_cast
        omega
  · have hpos : (0 : ℤ) < ((((t - f) / i).toNat + 1 : ℕ) : ℤ) * i := by
      apply mul_pos _ hi
      push_cast
      positivity
    omega

lemma genTimestamps_eq_spec {i : ℤ} (hi : 0 < i) (f t : ℤ) :
    genTimestamps f t i = specTimestamps f t i :=
  tsLoop_eq_spec hi t (loopFuel f t i) f (loopFuel_suff hi f t)

lemma dataPointsLoop_map_fst {σ : Type} (rs : RandomSource σ) (mid : String) (t i : ℤ) :
    ∀ (fuel : ℕ) (cur : ℤ) (s : σ),
      (dataPointsLoop rs mid fuel cur t i s).map Prod.fst = tsLoop fuel cur t i := by
  intro fuel
  induction fuel with
  | zero => intro cur s; rfl
  | succ fuel ih =>
    intro cur s
    rw [dataPointsLoop, tsLoop]
    by_cases hcur : cur ≤ t
    · rw [if_pos hcur, if_pos hcur]
      simp only [List.map_cons]
      rw [ih]
    · rw [if_neg hcur, if_neg hcur]
      rfl

lemma map_fst_get_mock_data_points {σ : Type} (rs : RandomSource σ) (mid : String)
    (f t : ℤ) (res : String) (s : σ) :
    (get_mock_data_points rs mid f t res s).map Prod.fst =
      specTimestamps f t (intervalFlat res) := by
  unfold get_mock_data_points
  rw [dataPointsLoop_map_fst]
  exact tsLoop_eq_spec (intervalFlat_pos res) t _ f
    (loopFuel_suff (intervalFlat_pos res) f t)

lemma flatValue_range {σ : Type} {rs : RandomSource σ} (hv : rs.Valid)
    (mid : String) (s : σ) : ValueInRange mid (flatValue rs mid s).1 := by
  unfold flatValue ValueInRange
  split_ifs
  · exact hv.1 20 90 s (by norm_num)
  · exact hv.1 100 5000 s (by norm_num)
  · exact ⟨(rs.randint 1000 2800 s).1, rfl,
      (hv.2 1000 2800 s (by norm_num)).1, (hv.2 1000 2800 s (by norm_num)).2⟩
  · exact ⟨(rs.randint 0 50 s).1, rfl,
      (hv.2 0 50 s (by norm_num)).1, (hv.2 0 50 s (by norm_num)).2⟩
  · exact hv.1 1000000000 10000000000 s (by norm_num)
  · exact hv.1 0 100 s (by norm_num)

lemma dataPointsLoop_values {σ : Type} {rs : RandomSource σ} (hv : rs.Valid)
    (mid : String) (t i : ℤ) :
    ∀ (fuel : ℕ) (cur : ℤ) (s : σ) (p : ℤ × ℚ),
      p ∈ dataPointsLoop rs mid fuel cur t i s → ValueInRange mid p.2 := by
  intro fuel
  induction fuel with
  | zero => intro cur s p hp; simp [dataPointsLoop] at hp
  | succ fuel ih =>
    intro cur s p hp
    by_cases hcur : cur ≤ t
    · simp only [dataPointsLoop, if_pos hcur, List.mem_cons] at hp
      rcases hp with rfl | hp
      · exact flatValue_range hv mid s
      · exact ih _ _ _ hp
    · simp only [dataPointsLoop, if_neg hcur, List.not_mem_nil] at hp

lemma randintList_length {σ : Type} (rs : RandomSource σ) (a b : ℤ) :
    ∀ (n : ℕ) (s : σ), ((randintList rs a b n s).1).length = n := by
  intro n
  induction n with
  | zero => intro s; rfl
  | succ n ih =>
    intro s
    simp only [randintList, List.length_cons, ih]

lemma randintList_mem {σ : Type} {rs : RandomSource σ} (hv : rs.Valid)
    {a b : ℤ} (hab : a ≤ b) :
    ∀ (n : ℕ) (s : σ) (q : ℚ), q ∈ (randintList rs a b n s).1 →
      ∃ k : ℤ, q = (k : ℚ) ∧ a ≤ k ∧ k ≤ b := by
  intro n
  induction n with
  | zero => intro s q hq; simp [randintList] at hq
  | succ n ih =>
    intro s q hq
    simp only [randintList, List.mem_cons] at hq
    rcases hq with rfl | hq
    · exact ⟨(rs.randint a b s).1, rfl,
        (hv.2 a b s hab).1, (hv.2 a b s hab).2⟩
    · exact ih _ _ hq

lemma uniformList_length {σ : Type} (rs : RandomSource σ) (a b : ℚ) :
    ∀ (n : ℕ) (s : σ), ((uniformList rs a b n s).1).length = n := by
  intro n
  induction n with
  | zero => intro s; rfl
  | succ n ih =>
    intro s
    simp only [uniformList, List.length_cons, ih]

lemma uniformList_mem {σ : Type} {rs : RandomSource σ} (hv : rs.Valid)
    {a b : ℚ} (hab : a ≤ b) :
    ∀ (n : ℕ) (s : σ) (q : ℚ), q ∈ (uniformList rs a b n s).1 →
      a ≤ q ∧ q ≤ b := by
  intro n
  induction n with
  | zero => intro s q hq; simp [uniformList] at hq
  | succ n ih =>
    intro s q hq
    simp only [uniformList, List.mem_cons] at hq
    rcases hq with rfl | hq
    · exact hv.1 a b s hab
    · exact ih _ _ hq

lemma trivSource_valid : trivSource.Valid := by
  constructor
  · intro a b s hab; exact ⟨le_refl a, hab⟩
  · intro a b s hab; exact ⟨le_refl a, hab⟩

lemma charVal_digitChar : ∀ d : ℕ, d < 10 → charVal (digitChar d) = some d := by
  decide

lemma digitChar_ne_dash : ∀ d : ℕ, digitChar d ≠ '-' := by
  intro d
  unfold digitChar
  split_ifs <;> decide

lemma parseDigits_map :
    ∀ ds : List ℕ, (∀ d ∈ ds, d < 10) → ∀ acc : ℕ,
      parseDigits (ds.map digitChar) acc =
        some (ds.foldl (fun x d => x * 10 + d) acc) := by
  intro ds
  induction ds with
  | nil => intro _ acc; rfl
  | cons d ds ih =>
    intro hlt acc
    have hd : d < 10 := hlt d (List.mem_cons_self d ds)
    simp only [List.map_cons, parseDigits, charVal_digitChar d hd, List.foldl_cons]
    exact ih (fun e he => hlt e (List.mem_cons_of_mem d he)) (acc * 10 + d)

lemma foldl_reverse_ofDigits :
    ∀ (l : List ℕ) (a : ℕ),
      l.reverse.foldl (fun x d => x * 10 + d) a =
        a * 10 ^ l.length + Nat.ofDigits 10 l := by
  intro l
  induction l with
  | nil => intro a; simp
  | cons d l ih =>
    intro a
    rw [List.reverse_cons, List.foldl_append]
    simp only [List.foldl_cons, List.foldl_nil, ih, Nat.ofDigits_cons,
      List.length_cons]
    ring

lemma parseDigits_decList : ∀ n : ℕ, parseDigits (decList n) 0 = some n := by
  intro n
  by_cases hn : n = 0
  · subst hn; decide
  · unfold decList
    rw [if_neg hn, ← List.map_reverse]
    rw [parseDigits_map ((Nat.digits 10 n).reverse) ?hdig 0]
    · rw [foldl_reverse_ofDigits]
      simp [Nat.ofDigits_digits]
    case hdig =>
      intro d hd
      rw [List.mem_reverse] at hd
      exact Nat.digits_lt_base (by norm_num) hd

lemma decList_ne_nil (n : ℕ) : decList n ≠ [] := by
  unfold decList
  split_ifs with h
  · simp
  · simp [Nat.digits_ne_nil_iff_ne_zero.mpr h]

lemma decList_mem_ne_dash (n : ℕ) : ∀ c ∈ decList n, c ≠ '-' := by
  intro c hc
  unfold decList at hc
  split_ifs at hc with h
  · simp only [List.mem_singleton] at hc
    subst hc; decide
  · rw [List.mem_reverse, List.mem_map] at hc
    obtain ⟨d, -, rfl⟩ := hc
    exact digitChar_ne_dash d

lemma parseIntStr_decimalRepr : ∀ i : ℤ, parseIntStr (decimalRepr i) = some i := by
  intro i
  unfold decimalRepr parseIntStr
  by_cases hi : i < 0
  · rw [if_pos hi]
    obtain ⟨c, cs, hcs⟩ : ∃ c cs, decList i.natAbs = c :: cs := by
      cases h : decList i.natAbs with
      | nil => exact absurd h (decList_ne_nil _)
      | cons c cs => exact ⟨c, cs, rfl⟩
    have htl : (String.mk ('-' :: decList i.natAbs)).toList = '-' :: decList i.natAbs := rfl
    rw [htl, hcs]
    have hparse : parseDigits (c :: cs) 0 = some i.natAbs := by
      rw [← hcs]; exact parseDigits_decList i.natAbs
    show (parseDigits (c :: cs) 0).map (fun n : ℕ => -(n : ℤ)) = some i
    rw [hparse, Option.map_some', Option.some.injEq]
    omega
  · rw [if_neg hi]
    obtain ⟨c, cs, hcs⟩ : ∃ c cs, decList i.toNat = c :: cs := by
      cases h : decList i.toNat with
      | nil => exact absurd h (decList_ne_nil _)
      | cons c cs => exact ⟨c, cs, rfl⟩
    have hc : c ≠ '-' :=
      decList_mem_ne_dash i.toNat c (by rw [hcs]; exact List.mem_cons_self c cs)
    have htl : (String.mk (decList i.toNat)).toList = decList i.toNat := rfl
    rw [htl, hcs]
    have hparse : parseDigits (c :: cs) 0 = some i.toNat := by
      rw [← hcs]; exact parseDigits_decList i.toNat
    show parseIntChars (c :: cs) = some i
    simp only [parseIntChars]
    rw [if_neg hc, hparse, Option.map_some', Option.some.injEq]
    omega

lemma befFirst_eq_none_of_not_contains {s pat : List Char}
    (h : containsSub s pat = false) : befFirst pat s = none := by
  cases hb : befFirst pat s with
  | none => rfl
  | some p => rw [contains_of_befFirst_some hb] at h; cases h

lemma beforeFirstOcc_of_befFirst {s pat p : List Char}
    (h : befFirst pat s = some p) : BeforeFirstOcc pat s p :=
  ⟨befFirst_some_decomp s pat p h, befFirst_some_min s pat p h⟩

lemma extract_eq_of_filterMark {sel : String} {p : List Char}
    (hne : ¬ sel = "") (hp : befFirst ":filter(".toList sel.toList = some p) :
    extractBaseMetricId sel = String.mk p := by
  unfold extractBaseMetricId
  rw [if_neg hne, hp]

lemma extract_eq_of_splitByMark {sel : String} {p : List Char}
    (hne : ¬ sel = "") (hf : befFirst ":filter(".toList sel.toList = none)
    (hp : befFirst ":splitBy(".toList sel.toList = some p) :
    extractBaseMetricId sel = String.mk p := by
  unfold extractBaseMetricId
  rw [if_neg hne, hf, hp]

lemma extract_eq_of_sortMark {sel : String} {p : List Char}
    (hne : ¬ sel = "") (hf : befFirst ":filter(".toList sel.toList = none)
    (hsp : befFirst ":splitBy(".toList sel.toList = none)
    (hp : befFirst ":sort(".toList sel.toList = some p) :
    extractBaseMetricId sel = String.mk p := by
  unfold extractBaseMetricId
  rw [if_neg hne, hf, hsp, hp]

lemma extract_eq_self {sel : String}
    (hf : befFirst ":filter(".toList sel.toList = none)
    (hsp : befFirst ":splitBy(".toList sel.toList = none)
    (hso : befFirst ":sort(".toList sel.toList = none) :
    extractBaseMetricId sel = sel := by
  unfold extractBaseMetricId
  by_cases hne : sel = ""
  · rw [if_pos hne]; exact hne.symm
  · rw [if_neg hne, hf, hsp, hso]

/-- C1: flat series generation emits exactly the timestamps `from`,
`from + I`, `from + 2I`, ... up to the last one not exceeding `to`
(`(to - from) / I + 1` points when `from ≤ to`, none when `from > to`),
for every metric id, random source and resolution; in particular the two
concrete examples of the spec: one point at 1000000 for the range
1000000..1003000 at resolution `1m`, and the two points 0 and 300000 for
the range 0..300000 at resolution `5m`. -/
theorem claim_C1_flat_timestamps {σ : Type} (rs : RandomSource σ) (mid : String)
    (f t : ℤ) (res : String) (s : σ) :
    (get_mock_data_points rs mid f t res s).map Prod.fst =
        specTimestamps f t (intervalFlat res) ∧
      (t < f → get_mock_data_points rs mid f t res s = []) ∧
      (get_mock_data_points trivSource mid 1000000 1003000 "1m" ()).map Prod.fst =
        [1000000] ∧
      (get_mock_data_points trivSource mid 0 300000 "5m" ()).map Prod.fst =
        [0, 300000] := by
  refine ⟨map_fst_get_mock_data_points rs mid f t res s, ?_, ?_, ?_⟩
  · intro h
    have hm := map_fst_get_mock_data_points rs mid f t res s
    rw [specTimestamps_of_gt h] at hm
    exact List.map_eq_nil_iff.mp hm
  · rw [map_fst_get_mock_data_points]
    decide
  · rw [map_fst_get_mock_data_points]
    decide

/-- Witness for C1: the empty-range hypothesis discharged at `from = 1`,
`to = 0`. -/
theorem claim_C1_flat_timestamps_witness :
    (0 : ℤ) < 1 ∧
      get_mock_data_points trivSource "builtin:host.cpu.usage" 1 0 "1m" () = [] :=
  ⟨by decide,
   (claim_C1_flat_timestamps trivSource "builtin:host.cpu.usage" 1 0 "1m" ()).2.1
     (by decide)⟩

/-- C2: the base metric id is the segment before the first occurrence of
the first marker present, markers tried in the fixed priority order
`:filter(`, `:splitBy(`, `:sort(`; with no marker present the whole
selector is the base id, and the empty selector yields the empty base
id. -/
theorem claim_C2_base_id (sel : String) :
    (strContains sel ":filter(" = true →
        BeforeFirstOcc ":filter(".toList sel.toList
          (parseSelector sel).baseMetricId.toList) ∧
      (strContains sel ":filter(" = false → strContains sel ":splitBy(" = true →
        BeforeFirstOcc ":splitBy(".toList sel.toList
          (parseSelector sel).baseMetricId.toList) ∧
      (strContains sel ":filter(" = false → strContains sel ":splitBy(" = false →
        strContains sel ":sort(" = true →
        BeforeFirstOcc ":sort(".toList sel.toList
          (parseSelector sel).baseMetricId.toList) ∧
      (strContains sel ":filter(" = false → strContains sel ":splitBy(" = false →
        strContains sel ":sort(" = false →
        (parseSelector sel).baseMetricId = sel) ∧
      (sel = "" → (parseSelector sel).baseMetricId = "") := by
  have hbase : (parseSelector sel).baseMetricId = extractBaseMetricId sel := rfl
  refine ⟨?_, ?_, ?_, ?_, ?_⟩
  · intro h
    have hne : ¬ sel = "" := by
      intro he
      rw [he] at h
      exact absurd h (by decide)
    obtain ⟨p, hp⟩ := befFirst_isSome_of_contains (by decide) h
    rw [hbase, extract_eq_of_filterMark hne hp]
    exact beforeFirstOcc_of_befFirst hp
  · intro hf h
    have hne : ¬ sel = "" := by
      intro he
      rw [he] at h
      exact absurd h (by decide)
    obtain ⟨p, hp⟩ := befFirst_isSome_of_contains (by decide) h
    rw [hbase, extract_eq_of_splitByMark hne (befFirst_eq_none_of_not_contains hf) hp]
    exact beforeFirstOcc_of_befFirst hp
  · intro hf hsp h
    have hne : ¬ sel = "" := by
      intro he
      rw [he] at h
      exact absurd h (by decide)
    obtain ⟨p, hp⟩ := befFirst_isSome_of_contains (by decide) h
    rw [hbase, extract_eq_of_sortMark hne (befFirst_eq_none_of_not_contains hf)
      (befFirst_eq_none_of_not_contains hsp) hp]
    exact beforeFirstOcc_of_befFirst hp
  · intro hf hsp hso
    rw [hbase]
    exact extract_eq_self (befFirst_eq_none_of_not_contains hf)
      (befFirst_eq_none_of_not_contains hsp) (befFirst_eq_none_of_not_contains hso)
  · intro he
    rw [hbase, he]
    decide

/-- Witness for C2: on a selector where `:splitBy(` occurs before
`:filter(` in the text, the priority-ordered rule still cuts at
`:filter(`. -/
theorem claim_C2_base_id_witness :
    strContains "a:splitBy(x):filter(y)" ":filter(" = true ∧
      BeforeFirstOcc ":filter(".toList "a:splitBy(x):filter(y)".toList
        (parseSelector "a:splitBy(x):filter(y)").baseMetricId.toList :=
  ⟨by decide, (claim_C2_base_id "a:splitBy(x):filter(y)").1 (by decide)⟩

/-- C3: for `from ≤ to` and a valid random source, a metric id containing
`keyRequest.count` or `service` yields exactly the three hardcoded
service-method series, each carrying the dimension label
`dt.entity.service_method`, sharing the cursor-walk timestamp list, with
value lists of the same length drawn from the integer ranges
[2000,2800], [1000,1400] and [500,1000] respectively; any other metric id
yields exactly one label-free series with values in [0,100]. -/
theorem claim_C3_multi_series {σ : Type} (rs : RandomSource σ) (mid : String)
    (f t : ℤ) (res : String) (s : σ) (hft : f ≤ t) (hv : rs.Valid) :
    ((strContains mid "keyRequest.count" || strContains mid "service") = true →
      ∃ v1 v2 v3 : List ℚ,
        get_mock_multi_series_data rs mid f t res s =
          [⟨["dt.entity.service_method"],
            [("dt.entity.service_method", "SERVICE_METHOD-7B94CA28812AEDEB"),
             ("dt.entity.service_method.name", "criarCobrancaPut - bki.cielo.com.br")],
            genTimestamps f t (intervalMulti res), v1⟩,
           ⟨["dt.entity.service_method"],
            [("dt.entity.service_method", "SERVICE_METHOD-586B0DAF0DCA0215"),
             ("dt.entity.service_method.name",
              "criarCobrancaPutEmv - IFOOD COM AGENCIA DE RESTAURANTES ONLINE S A:14380200000121")],
            genTimestamps f t (intervalMulti res), v2⟩,
           ⟨["dt.entity.service_method"],
            [("dt.entity.service_method", "SERVICE_METHOD-ABC123DEF456"),
             ("dt.entity.service_method.name", "processPayment - payment.service.com")],
            genTimestamps f t (intervalMulti res), v3⟩] ∧
        v1.length = (genTimestamps f t (intervalMulti res)).length ∧
        v2.length = (genTimestamps f t (intervalMulti res)).length ∧
        v3.length = (genTimestamps f t (intervalMulti res)).length ∧
        (∀ q ∈ v1, ∃ k : ℤ, q = (k : ℚ) ∧ 2000 ≤ k ∧ k ≤ 2800) ∧
        (∀ q ∈ v2, ∃ k : ℤ, q = (k : ℚ) ∧ 1000 ≤ k ∧ k ≤ 1400) ∧
        (∀ q ∈ v3, ∃ k : ℤ, q = (k : ℚ) ∧ 500 ≤ k ∧ k ≤ 1000)) ∧
    ((strContains mid "keyRequest.count" || strContains mid "service") = false →
      ∃ v : List ℚ,
        get_mock_multi_series_data rs mid f t res s =
          [⟨[], [], genTimestamps f t (intervalMulti res), v⟩] ∧
        v.length = (genTimestamps f t (intervalMulti res)).length ∧
        ∀ q ∈ v, 0 ≤ q ∧ q ≤ 100) := by
  constructor
  · intro h
    unfold get_mock_multi_series_data
    rw [h]
    simp only [if_true]
    refine ⟨_, _, _, rfl, randintList_length rs 2000 2800 _ _,
      randintList_length rs 1000 1400 _ _, randintList_length rs 500 1000 _ _,
      fun q hq => randintList_mem hv (by norm_num) _ _ q hq,
      fun q hq => randintList_mem hv (by norm_num) _ _ q hq,
      fun q hq => randintList_mem hv (by norm_num) _ _ q hq⟩
  · intro h
    unfold get_mock_multi_series_data
    rw [h]
    simp only [Bool.false_eq_true, if_false]
    refine ⟨_, rfl, uniformList_length rs 0 100 _ _,
      fun q hq => uniformList_mem hv (by norm_num) _ _ q hq⟩

/-- Witness for C3: the spec's concrete example yields three series. -/
theorem claim_C3_multi_series_witness :
    (1000000 : ℤ) ≤ 2000000 ∧ trivSource.Valid ∧
      (get_mock_multi_series_data trivSource "builtin:service.keyRequest.count.total"
        1000000 2000000 "5m" ()).length = 3 := by
  refine ⟨by decide, trivSource_valid, ?_⟩
  obtain ⟨v1, v2, v3, heq, -⟩ :=
    (claim_C3_multi_series trivSource "builtin:service.keyRequest.count.total"
      1000000 2000000 "5m" () (by decide) trivSource_valid).1 (by decide)
  rw [heq]
  rfl

/-- C4 as stated is false: with an empty base id the code skips the
exact-match step, so a catalog whose non-first entry has the empty
metric id is not returned even though it is an exact match. -/
theorem claim_C4_counterexample :
    (∃ m ∈ [Metric.mk "x" "", Metric.mk "" ""], m.metricId = "") ∧
      List.find? (fun m => m.metricId == "") [Metric.mk "x" "", Metric.mk "" ""] =
        some (Metric.mk "" "") ∧
      findMetricPermissive [Metric.mk "x" "", Metric.mk "" ""] "" =
        some (Metric.mk "x" "") ∧
      Metric.mk "x" "" ≠ Metric.mk "" "" := by
  refine ⟨by decide, by decide, by decide, by decide⟩

/-- C4 amended: for a non-empty base id the permissive lookup is
exact match, then substring match, then first entry; for an empty base id
it goes directly to the first entry; it reports NotFound exactly when the
catalog is empty. -/
theorem claim_C4_permissive_lookup (catalog : List Metric) (base : String) :
    findMetricPermissive catalog base = findPermSpec catalog base ∧
      (findMetricPermissive catalog base = none ↔ catalog = []) := by
  have hspec : findMetricPermissive catalog base = findPermSpec catalog base := by
    by_cases hb : base = ""
    · simp only [findMetricPermissive, findPermSpec, if_pos hb]
    · cases h1 : catalog.find? fun m => m.metricId == base with
      | some m => simp only [findMetricPermissive, findPermSpec, if_neg hb, h1]
      | none =>
        cases h2 : catalog.find? fun m => strContains m.metricId base with
        | some m => simp only [findMetricPermissive, findPermSpec, if_neg hb, h1, h2]
        | none => simp only [findMetricPermissive, findPermSpec, if_neg hb, h1, h2]
  refine ⟨hspec, ?_⟩
  rw [hspec]
  unfold findPermSpec
  by_cases hb : base = ""
  · rw [if_pos hb]
    exact List.head?_eq_none_iff
  · rw [if_neg hb]
    cases h1 : catalog.find? fun m => m.metricId == base with
    | some m =>
      have hne : catalog ≠ [] := List.ne_nil_of_mem (List.mem_of_find?_eq_some h1)
      simp [hne]
    | none =>
      cases h2 : catalog.find? fun m => strContains m.metricId base with
      | some m =>
        have hne : catalog ≠ [] := List.ne_nil_of_mem (List.mem_of_find?_eq_some h2)
        simp [hne]
      | none =>
        exact List.head?_eq_none_iff

/-- C5: the strict direct-by-id lookup succeeds exactly when some catalog
entry's metric id equals the requested id, the returned entry is such an
exact match, and with no exact match it reports NotFound rather than
falling back. -/
theorem claim_C5_strict_lookup (catalog : List Metric) (mid : String) :
    ((findMetricStrict catalog mid).isSome = true ↔
        ∃ m ∈ catalog, m.metricId = mid) ∧
      (∀ m, findMetricStrict catalog mid = some m →
        m ∈ catalog ∧ m.metricId = mid) ∧
      ((¬ ∃ m ∈ catalog, m.metricId = mid) → findMetricStrict catalog mid = none) := by
  have h2 : ∀ m, findMetricStrict catalog mid = some m →
      m ∈ catalog ∧ m.metricId = mid := by
    intro m hm
    refine ⟨List.mem_of_find?_eq_some hm, ?_⟩
    have := List.find?_some hm
    simpa using this
  have h1 : (findMetricStrict catalog mid).isSome = true ↔
      ∃ m ∈ catalog, m.metricId = mid := by
    constructor
    · intro h
      obtain ⟨m, hm⟩ := Option.isSome_iff_exists.mp h
      exact ⟨m, (h2 m hm).1, (h2 m hm).2⟩
    · rintro ⟨m, hmem, hmid⟩
      unfold findMetricStrict
      rw [List.find?_isSome]
      exact ⟨m, hmem, by simpa using hmid⟩
  refine ⟨h1, h2, ?_⟩
  intro hne
  cases hm : findMetricStrict catalog mid with
  | none => rfl
  | some m => exact absurd ⟨m, (h2 m hm).1, (h2 m hm).2⟩ hne

/-- Witness for C5: a catalog without the requested id reports NotFound. -/
theorem claim_C5_strict_lookup_witness :
    (¬ ∃ m ∈ [Metric.mk "builtin:host.cpu.usage" "CPU"], m.metricId = "nope") ∧
      findMetricStrict [Metric.mk "builtin:host.cpu.usage" "CPU"] "nope" = none :=
  ⟨by decide,
   (claim_C5_strict_lookup [Metric.mk "builtin:host.cpu.usage" "CPU"] "nope").2.2
     (by decide)⟩

/-- C6: both generators map `1m`, `5m`, `1h`, `1d` to 60000, 300000,
3600000, 86400000 milliseconds, and any other resolution string defaults
to 60000 in the flat generator but 300000 in the multi-series
generator. -/
theorem claim_C6_resolution_table :
    intervalFlat "1m" = 60000 ∧ intervalFlat "5m" = 300000 ∧
      intervalFlat "1h" = 3600000 ∧ intervalFlat "1d" = 86400000 ∧
      intervalMulti "1m" = 60000 ∧ intervalMulti "5m" = 300000 ∧
      intervalMulti "1h" = 3600000 ∧ intervalMulti "1d" = 86400000 ∧
      ∀ res : String, res ≠ "1m" → res ≠ "5m" → res ≠ "1h" → res ≠ "1d" →
        intervalFlat res = 60000 ∧ intervalMulti res = 300000 := by
  refine ⟨by decide, by decide, by decide, by decide, by decide, by decide,
    by decide, by decide, ?_⟩
  intro res h1 h2 h3 h4
  unfold intervalFlat intervalMulti
  rw [if_neg h1, if_neg h2, if_neg h3, if_neg h4, if_neg h1, if_neg h2,
    if_neg h3, if_neg h4]
  exact ⟨rfl, rfl⟩

/-- Witness for C6: the out-of-table resolution `30s` gets the two
distinct defaults. -/
theorem claim_C6_resolution_table_witness :
    ("30s" ≠ "1m" ∧ "30s" ≠ "5m" ∧ "30s" ≠ "1h" ∧ "30s" ≠ "1d") ∧
      intervalFlat "30s" = 60000 ∧ intervalMulti "30s" = 300000 :=
  ⟨by decide,
   claim_C6_resolution_table.2.2.2.2.2.2.2.2 "30s" (by decide) (by decide)
     (by decide) (by decide)⟩

/-- C7: with a valid random source, every value emitted by the flat
generator lies in the range selected by the first matching substring rule
(cpu/mem, response.time, request.count/keyRequest.count, crashCount,
disk, default), with the integer rules yielding integers. -/
theorem claim_C7_value_ranges {σ : Type} (rs : RandomSource σ) (hv : rs.Valid)
    (mid : String) (f t : ℤ) (res : String) (s : σ) :
    ∀ p ∈ get_mock_data_points rs mid f t res s, ValueInRange mid p.2 := by
  intro p hp
  exact dataPointsLoop_values hv mid t (intervalFlat res) _ f s p hp

/-- Witness for C7 at a cpu metric over one interval. -/
theorem claim_C7_value_ranges_witness :
    trivSource.Valid ∧
      ∀ p ∈ get_mock_data_points trivSource "builtin:host.cpu.usage" 0 60000 "1m" (),
        ValueInRange "builtin:host.cpu.usage" p.2 :=
  ⟨trivSource_valid,
   claim_C7_value_ranges trivSource trivSource_valid "builtin:host.cpu.usage"
     0 60000 "1m" ()⟩

/-- C8: parsing is total and the three transformation flags are exactly
the substring-presence tests for `:filter(`, `:splitBy(`, `:sort(`; on
the spec's example selector the parse yields `hasSplitBy = true` and base
id `builtin:service.keyRequest.count.total`. -/
theorem claim_C8_flags_total :
    (∀ sel : String,
        (parseSelector sel).hasFilter = strContains sel ":filter(" ∧
        (parseSelector sel).hasSplitBy = strContains sel ":splitBy(" ∧
        (parseSelector sel).hasSort = strContains sel ":sort(") ∧
      parseSelector
          "builtin:service.keyRequest.count.total:splitBy(\"dt.entity.service_method\")" =
        ⟨"builtin:service.keyRequest.count.total", false, true, false⟩ := by
  constructor
  · intro sel
    exact ⟨rfl, rfl, rfl⟩
  · decide

/-- C9: in every series produced by the multi-series generator the values
list has the same length as the timestamps list, and the flat generator's
points, paired into a timestamps list and a values list, also have equal
lengths. -/
theorem claim_C9_alignment {σ : Type} (rs : RandomSource σ) (mid : String)
    (f t : ℤ) (res : String) (s : σ) :
    (∀ sd ∈ get_mock_multi_series_data rs mid f t res s,
        sd.values.length = sd.timestamps.length) ∧
      ((get_mock_data_points rs mid f t res s).map Prod.fst).length =
        ((get_mock_data_points rs mid f t res s).map Prod.snd).length := by
  constructor
  · intro sd hsd
    unfold get_mock_multi_series_data at hsd
    by_cases h : (strContains mid "keyRequest.count" || strContains mid "service") = true
    · rw [h] at hsd
      simp only [if_true, List.mem_cons, List.not_mem_nil, or_false] at hsd
      rcases hsd with rfl | rfl | rfl
      · exact randintList_length rs 2000 2800 _ _
      · exact randintList_length rs 1000 1400 _ _
      · exact randintList_length rs 500 1000 _ _
    · rw [Bool.not_eq_true] at h
      rw [h] at hsd
      simp only [Bool.false_eq_true, if_false, List.mem_cons, List.not_mem_nil,
        or_false] at hsd
      rw [hsd]
      exact uniformList_length rs 0 100 _ _
  · simp only [List.length_map]

/-- C10: calling either generator with the decimal string representations
of the timestamps is accepted and yields exactly the same result as
calling it with the integer timestamps. -/
theorem claim_C10_string_args {σ : Type} (rs : RandomSource σ) (mid : String)
    (f t : ℤ) (res : String) (s : σ) :
    get_mock_data_points_arg rs mid (TsArg.str (decimalRepr f))
        (TsArg.str (decimalRepr t)) res s =
        some (get_mock_data_points rs mid f t res s) ∧
      get_mock_data_points_arg rs mid (TsArg.int f) (TsArg.int t) res s =
        some (get_mock_data_points rs mid f t res s) ∧
      get_mock_multi_series_data_arg rs mid (TsArg.str (decimalRepr f))
        (TsArg.str (decimalRepr t)) res s =
        some (get_mock_multi_series_data rs mid f t res s) ∧
      get_mock_multi_series_data_arg rs mid (TsArg.int f) (TsArg.int t) res s =
        some (get_mock_multi_series_data rs mid f t res s) := by
  have h1 : resolveTs (TsArg.str (decimalRepr f)) = some f := parseIntStr_decimalRepr f
  have h2 : resolveTs (TsArg.str (decimalRepr t)) = some t := parseIntStr_decimalRepr t
  refine ⟨?_, rfl, ?_, rfl⟩
  · unfold get_mock_data_points_arg
    rw [h1, h2]
  · unfold get_mock_multi_series_data_arg
    rw [h1, h2]

end DynatraceSim
